import Mathlib

/-!
# http-server: the bootstrap in `cmd/http-server/main.go`

A shallow embedding of `func main()` and of the standard-library calls it
makes (`flag.String`, `flag.Parse`, `log.Println`, `log.Fatal`, `fmt.Sprint`,
`fmt.Sprintln`).  The collaborator package `pkg/server` is not part of the
sources at hand; `server.NewHTTPServer` and `Open` are parameters of the
embedding.

Go strings are byte sequences, so `len`, indexing and slicing are the list
operations on bytes.
-/

namespace HttpServer

/-! ## Go strings -/

/-- A Go `string`: an immutable sequence of bytes. -/
abbrev GoString := List UInt8

/-- The bytes of an ASCII string literal of the source. -/
def bytes (s : String) : GoString := s.data.map (fun c => UInt8.ofNat c.toNat)

/-- The byte `'-'`. -/
def minus : UInt8 := 45
/-- The byte `'='`. -/
def equals : UInt8 := 61
/-- The byte `':'`. -/
def colon : UInt8 := 58
/-- The byte `'\n'`. -/
def newline : UInt8 := 10
/-- The byte `' '`. -/
def space : UInt8 := 32

/-- A decimal digit byte, `'0'` to `'9'`. -/
def isDigit (b : UInt8) : Bool := decide (48 ≤ b.toNat) && decide (b.toNat ≤ 57)

/-! ## package fmt: `Sprint` and `Sprintln` -/

/-- The value of a panic raised by a method that `fmt` calls, as `catchPanic`
meets it when it prints the value with `printArg(err, 'v')`: the printing
completes with a text, or a method of the value panics in turn. -/
inductive PanicValue where
  | prints (text : GoString)
  | panics
deriving DecidableEq, Repr

/-- What `reflect` tells `fmt` about the dynamic type of an error value: its
kind is `String` (as for `type E string`), or it is a nil pointer, or neither. -/
inductive ErrorKind where
  | string
  | nilPointer
  | other
deriving DecidableEq, Repr

/-- What a call of the method `Error()` does: it returns a text, or it panics. -/
inductive ErrorCall where
  | returns (text : GoString)
  | panics (value : PanicValue)
deriving DecidableEq, Repr

/-- What a call of `Format(p, 'v')` of a `fmt.Formatter` does: it writes
`written` to the printer and returns, or panics after that. -/
structure FormatCall where
  written : GoString
  panics : Option PanicValue
deriving DecidableEq, Repr

/-- A non-nil Go `error` value as `fmt` meets it: the kind of its dynamic type,
its method `Format` when it implements `fmt.Formatter`, and its method
`Error`. -/
structure GoError where
  kind : ErrorKind
  Format : Option FormatCall
  Error : ErrorCall
deriving DecidableEq, Repr

/-- An operand of a `fmt` print call, as far as `main` passes any: a `string`
or an `error`. -/
inductive Operand where
  | str (s : GoString)
  | err (e : GoError)
deriving DecidableEq, Repr

/-- In `doPrint`: `isString := arg != nil && reflect.TypeOf(arg).Kind() == reflect.String`. -/
def Operand.isString : Operand → Bool
  | .str _ => true
  | .err e => decide (e.kind = .string)

/-- The method `(*pp).catchPanic` for the operand `e`, once the method named
`method` has panicked with `value`: a nil pointer prints as `<nil>`; otherwise
the panic message is printed around the value, and a panic while the value is
printed is raised again (the result `none`). -/
def catchPanic (e : GoError) (method : GoString) (value : PanicValue) : Option GoString :=
  if e.kind = .nilPointer then some (bytes "<nil>")
  else
    match value with
    | .prints text => some (bytes "%!v(PANIC=" ++ method ++ bytes " method: " ++ text ++ bytes ")")
    | .panics => none

/-- The method `(*pp).handleMethods` with the verb `v` for an error operand: a
`fmt.Formatter` is asked first and formats itself; otherwise the text of
`Error()` is printed; a panic of either method goes to `catchPanic`. -/
def handleMethods (e : GoError) : Option GoString :=
  match e.Format with
  | some call =>
    match call.panics with
    | none => some call.written
    | some value => (catchPanic e (bytes "Format") value).map (call.written ++ ·)
  | none =>
    match e.Error with
    | .returns text => some text
    | .panics value => catchPanic e (bytes "Error") value

/-- The text `printArg(arg, 'v')` appends, `none` when it panics: a string as
it is, an error through `handleMethods`. -/
def printArg : Operand → Option GoString
  | .str s => some s
  | .err e => handleMethods e

/-- The loop of `(*pp).doPrint` from operand number `argNum` on: a space is
added between two operands when neither is a string.  The result is `none`
when printing an operand panics. -/
def doPrint (argNum : Nat) (prevString : Bool) : List Operand → Option GoString
  | [] => some []
  | arg :: rest =>
    match printArg arg, doPrint (argNum + 1) arg.isString rest with
    | some text, some more =>
      some ((if decide (argNum > 0) && !arg.isString && !prevString then [space] else [])
        ++ text ++ more)
    | _, _ => none

/-- The function `fmt.Sprint`; `none` when it panics. -/
def Sprint (a : List Operand) : Option GoString := doPrint 0 false a

/-- The loop of `(*pp).doPrintln` from operand number `argNum` on: a space
between operands always, a newline at the end. -/
def doPrintln (argNum : Nat) : List Operand → Option GoString
  | [] => some [newline]
  | arg :: rest =>
    match printArg arg, doPrintln (argNum + 1) rest with
    | some text, some more => some ((if argNum > 0 then [space] else []) ++ text ++ more)
    | _, _ => none

/-- The function `fmt.Sprintln`; `none` when it panics. -/
def Sprintln (a : List Operand) : Option GoString := doPrintln 0 a

/-! ## package log -/

/-- The bytes `(*Logger).Output` writes for the message `s`: the header (for the
standard logger the date and time of the call), the message, and a newline
when the message does not end in one. -/
def formatLine (header s : GoString) : GoString :=
  header ++ s ++ (if s.getLast? = some newline then [] else [newline])

/-! ## package flag -/

/-- What a failing `parseOne` returns: `ErrHelp`, or the error built by `failf`
with its message. -/
inductive FlagError where
  | ErrHelp
  | failf (msg : GoString)
deriving DecidableEq, Repr

/-- What the flag set writes to its output (standard error): the line of an
error, `fmt.Fprintln(f.Output(), err)`, and the usage text of `f.usage()`,
which is not spelled out. -/
inductive FlagWrite where
  | errLine (msg : GoString)
  | usage
deriving DecidableEq, Repr

/-- The state of `flag.CommandLine` once line 12 has defined the one string flag
`port`: the value `*port`, whether `port` is in the map `actual`, the
arguments not yet consumed and what was written so far. -/
structure FlagSet where
  port : GoString
  actual : Bool
  args : List GoString
  output : List FlagWrite
deriving DecidableEq, Repr

/-- Line 12, `port := flag.String("port", "8080", "Port to listen to")`, followed by
the start of `Parse(arguments)`, which stores the arguments. -/
def FlagSet.String (arguments : List GoString) : FlagSet :=
  { port := bytes "8080", actual := false, args := arguments, output := [] }

/-- The method `failf`: the error line and the usage go to the output, the
error is returned. -/
def FlagSet.failf (f : FlagSet) (msg : GoString) : FlagSet × FlagError :=
  ({ f with output := f.output ++ [.errLine msg, .usage] }, .failf msg)

/-- The loop of `parseOne` that looks for the first `'='` at an index `i ≥ 1`
of `name`: `scanEquals i rest` scans `rest = name[i:]` and returns
`(name[:j], name[j+1:])` for the first such `j`. -/
def scanEquals (name : GoString) : Nat → GoString → Option (GoString × GoString)
  | _, [] => none
  | i, c :: rest => if c = equals then some (name.take i, rest) else scanEquals name (i + 1) rest

/-- The count `numMinuses` of `parseOne`: 2 when `s[1] == '-'`, else 1. -/
def numMinuses (s : GoString) : Nat := if s.get? 1 = some minus then 2 else 1

/-- The end of `parseOne`, once `name` was found in `f.formal`: the flag is a
string flag and must have a value, which might be the next argument;
`stringValue.Set` never fails. -/
def parseOneValue (f : FlagSet) (name : GoString) (hasValue : Bool) (value : GoString) :
    FlagSet × Bool × Option FlagError :=
  match hasValue, f.args with
  | true, _ => ({ f with port := value, actual := true }, true, none)
  | false, next :: rest =>
    -- value is the next arg
    ({ f with port := next, actual := true, args := rest }, true, none)
  | false, [] =>
    let r := f.failf (bytes "flag needs an argument: -" ++ name)
    (r.1, false, some r.2)

/-- The middle of `parseOne`: `name` is looked up in `f.formal`, whose only key
is `port`; `help` and `h` give the usage and `ErrHelp`. -/
def parseOneLookup (f : FlagSet) (name : GoString) (hasValue : Bool) (value : GoString) :
    FlagSet × Bool × Option FlagError :=
  if name = bytes "port" then parseOneValue f name hasValue value
  else if name = bytes "help" || name = bytes "h" then
    ({ f with output := f.output ++ [.usage] }, false, some .ErrHelp)
  else
    let r := f.failf (bytes "flag provided but not defined: -" ++ name)
    (r.1, false, some r.2)

/-- The method `(*FlagSet).parseOne`, for a flag set whose only defined flag is
the string flag `port`.  Returns the new state, `seen` and the error. -/
def parseOne (f : FlagSet) : FlagSet × Bool × Option FlagError :=
  match f.args with
  | [] => (f, false, none)
  | s :: tail =>
    if s.length < 2 || s.head? != some minus then (f, false, none)
    else if numMinuses s = 2 && s.length = 2 then
      -- "--" terminates the flags
      ({ f with args := tail }, false, none)
    else
      let name := s.drop (numMinuses s)
      if name.length = 0 || name.head? = some minus || name.head? = some equals then
        let r := f.failf (bytes "bad flag syntax: " ++ s)
        (r.1, false, some r.2)
      else
        -- it's a flag. does it have an argument?
        match scanEquals name 1 (name.drop 1) with
        | some (name, value) => parseOneLookup { f with args := tail } name true value
        | none => parseOneLookup { f with args := tail } name false []

/-- How `Parse` ends: with the flags parsed, or in `os.Exit(code)`. -/
inductive ParseResult where
  | ok (f : FlagSet)
  | exit (f : FlagSet) (code : Nat)
deriving DecidableEq, Repr

/-- What `Parse` does once `parseOne` has not seen a flag: without an error the
loop is left; with one, the error handling of `flag.CommandLine`, `ExitOnError`,
exits with status 0 for `ErrHelp` (status 2 before Go 1.15) and with status 2
otherwise. -/
def parseEnd (r : FlagSet × Bool × Option FlagError) : ParseResult :=
  match r.2.2 with
  | none => .ok r.1
  | some .ErrHelp => .exit r.1 0
  | some (.failf _) => .exit r.1 2

/-- The loop of `(*FlagSet).Parse` on `flag.CommandLine`: `parseOne` is called
until it no longer sees a flag. -/
def Parse (f : FlagSet) : ParseResult :=
  if h : (parseOne f).2.1 = true then Parse (parseOne f).1
  else parseEnd (parseOne f)
termination_by f.args.length
decreasing_by
  -- a call of parseOne that reports a flag as seen has consumed an argument
  have hv : ∀ (g : FlagSet) (n : GoString) (b : Bool) (v : GoString),
      (parseOneValue g n b v).1.args.length ≤ g.args.length := by
    intro g n b v
    unfold parseOneValue
    split <;> simp [FlagSet.failf]
    rename_i hg; simp [hg]
  have hl : ∀ (g : FlagSet) (n : GoString) (b : Bool) (v : GoString),
      (parseOneLookup g n b v).1.args.length ≤ g.args.length := by
    intro g n b v
    unfold parseOneLookup
    split_ifs
    · exact hv g n b v
    · simp
    · simp [FlagSet.failf]
  unfold parseOne at h ⊢
  cases hargs : f.args with
  | nil => simp [hargs] at h
  | cons s tail =>
    simp only [hargs] at h ⊢
    split_ifs at h ⊢
    split <;> exact Nat.lt_succ_of_le (hl _ _ _ _)

/-! ## package server (pkg/server), a parameter -/

/-- What a call of `Open` does: it blocks for good (the server runs), or it
returns, with `nil` or with an error. -/
inductive OpenResult where
  | blocks
  | returns (err : Option GoError)
deriving DecidableEq, Repr

/-- The collaborator `pkg/server` as `main` uses it: the factory
`NewHTTPServer(address)` returning a handle of type `H`, and the method `Open`
on a handle. -/
structure Server (H : Type) where
  NewHTTPServer : GoString → H
  Open : H → OpenResult

/-! ## func main -/

/-- The effects of a run of `main` that can be observed from outside, in the
order in which they occur. -/
inductive Effect (H : Type) where
  /-- The flag package writes to standard error. -/
  | flagWrite (w : FlagWrite)
  /-- The standard logger is given the message `s` (`std.Output(2, s)`) and
  writes `formatLine header s` to standard error. -/
  | logOutput (s : GoString)
  /-- The call `server.NewHTTPServer(address)`. -/
  | NewHTTPServer (address : GoString)
  /-- The call `Open()` on the handle `h`. -/
  | OpenCall (h : H)
  /-- The call of `Open` returns `err`. -/
  | OpenReturn (err : Option GoError)
  /-- The Go runtime reports a panic that nothing recovered on standard
  error. -/
  | panicReport
deriving DecidableEq, Repr

/-- How a run ends: `main` returns, the process is ended by `os.Exit(code)`, a
panic that nothing recovers ends it, or the run stays blocked in a call that
never returns. -/
inductive Outcome where
  | returned
  | exited (code : Nat)
  | panicked
  | blocked
deriving DecidableEq, Repr

/-- The exit status of the process: 0 when `main` returns, the argument of
`os.Exit`, 2 after a panic, none while the run is blocked. -/
def Outcome.exitStatus : Outcome → Option Nat
  | .returned => some 0
  | .exited code => some code
  | .panicked => some 2
  | .blocked => none

/-- A run of `main`: its effects in order and how it ends. -/
structure Run (H : Type) where
  trace : List (Effect H)
  outcome : Outcome
deriving DecidableEq, Repr

/-- Line 15: `listeningPort := ":" + *port`. -/
def listeningPort (port : GoString) : GoString := bytes ":" ++ port

/-- The first argument of `log.Fatal` on line 21. -/
def couldNotOpen : GoString := bytes "could not open httpServer"

/-- The call `log.Println(v...)`: `std.Output(2, fmt.Sprintln(v...))`.  Returns
the effects and whether the call returned (it does not when printing panics). -/
def Println {H : Type} (v : List Operand) : List (Effect H) × Bool :=
  match Sprintln v with
  | some s => ([.logOutput s], true)
  | none => ([.panicReport], false)

/-- The call `log.Fatal(v...)`: `std.Output(2, fmt.Sprint(v...))` followed by
`os.Exit(1)`; when printing panics, nothing is logged and the panic ends the
process. -/
def Fatal {H : Type} (v : List Operand) : List (Effect H) × Outcome :=
  match Sprint v with
  | some s => ([.logOutput s], .exited 1)
  | none => ([.panicReport], .panicked)

/-- Lines 15 to 24 of `main`, with `*port` equal to `port`. -/
def bootstrap {H : Type} (srv : Server H) (port : GoString) : Run H :=
  let listeningPort := listeningPort port
  -- log.Println(listeningPort)
  let logged : List (Effect H) × Bool := Println [.str listeningPort]
  if !logged.2 then ⟨logged.1, .panicked⟩
  else
    -- httpServer := server.NewHTTPServer(listeningPort)
    let httpServer := srv.NewHTTPServer listeningPort
    let t := logged.1 ++ [.NewHTTPServer listeningPort, .OpenCall httpServer]
    -- if err := httpServer.Open(); err != nil
    match srv.Open httpServer with
    | .blocks => ⟨t, .blocked⟩
    | .returns none => ⟨t ++ [.OpenReturn none], .returned⟩
    | .returns (some err) =>
      -- log.Fatal("could not open httpServer", err)
      let fatal : List (Effect H) × Outcome := Fatal [.str couldNotOpen, .err err]
      ⟨t ++ [.OpenReturn (some err)] ++ fatal.1, fatal.2⟩

/-- The function `main` run with the command-line arguments `args`
(`os.Args[1:]`) against the collaborator `srv`. -/
def main {H : Type} (srv : Server H) (args : List GoString) : Run H :=
  -- port := flag.String("port", "8080", "Port to listen to"); flag.Parse()
  match Parse (FlagSet.String args) with
  | .exit f code => ⟨f.output.map .flagWrite, .exited code⟩
  | .ok f =>
    let r := bootstrap srv f.port
    ⟨f.output.map .flagWrite ++ r.trace, r.outcome⟩

/-! ## Predicates of the properties -/

/-- The flag set as `Parse` leaves it, whether it returns or exits. -/
def ParseResult.flagSet : ParseResult → FlagSet
  | .ok f => f
  | .exit f _ => f

/-- An argument that supplies the flag `port`: `-port`, `--port`, `-port=value`
or `--port=value`. -/
def isPortFlag (a : GoString) : Bool :=
  a == bytes "-port" || a == bytes "--port" ||
    (bytes "-port=").isPrefixOf a || (bytes "--port=").isPrefixOf a

/-- The effect is a call of the factory `server.NewHTTPServer`. -/
def Effect.isNewHTTPServer {H : Type} : Effect H → Bool
  | .NewHTTPServer _ => true
  | _ => false

/-- The effect is a call of `Open`. -/
def Effect.isOpenCall {H : Type} : Effect H → Bool
  | .OpenCall _ => true
  | _ => false

/-- The effect is a message given to the standard logger. -/
def Effect.isLogOutput {H : Type} : Effect H → Bool
  | .logOutput _ => true
  | _ => false

/-- The process ends with a non-zero exit status. -/
def Run.exitsNonZero {H : Type} (r : Run H) : Prop :=
  ∃ code, r.outcome.exitStatus = some code ∧ code ≠ 0

/-- The call of `Open` returned an error in the run. -/
def Run.openFailed {H : Type} (r : Run H) : Prop :=
  ∃ e, Effect.OpenReturn (some e) ∈ r.trace

/-- The call of `Open` returned in the run. -/
def Run.openReturned {H : Type} (r : Run H) : Prop :=
  ∃ err, Effect.OpenReturn err ∈ r.trace

/-- The run has finished: `main` has returned or the process has exited. -/
def Run.finished {H : Type} (r : Run H) : Prop := r.outcome ≠ .blocked

/-- An address of the form `':'` followed only by decimal digits. -/
def colonDigits : GoString → Bool
  | [] => false
  | c :: rest => c == colon && rest.all isDigit

/-! ## Collaborators for the examples -/

/-- An error with the method `Error` alone, as `errors.New` builds it. -/
def bindError : GoError :=
  { kind := .other, Format := none,
    Error := .returns (bytes "listen tcp :9090: bind: address already in use") }

/-- An error that implements `fmt.Formatter`: printed under the verb `v` it
writes `FORMATTED`, while its method `Error` returns `boom`. -/
def formatterError : GoError :=
  { kind := .other, Format := some ⟨bytes "FORMATTED", none⟩, Error := .returns (bytes "boom") }

/-- An error whose method `Error` panics with a value whose own method panics
when `fmt` prints it. -/
def panickingError : GoError :=
  { kind := .other, Format := none, Error := .panics .panics }

/-- A server whose `Open` fails at once; the handle is the address. -/
def failingServer : Server GoString :=
  { NewHTTPServer := fun address => address
    Open := fun _ => .returns (some bindError) }

/-- A server whose `Open` returns `nil`; the handle is the address. -/
def stoppedServer : Server GoString :=
  { NewHTTPServer := fun address => address
    Open := fun _ => .returns none }

/-- A server whose `Open` blocks for good; the handle is the address. -/
def runningServer : Server GoString :=
  { NewHTTPServer := fun address => address
    Open := fun _ => .blocks }

/-- A server whose `Open` fails with the error `e`; the handle is the address. -/
def serverFailingWith (e : GoError) : Server GoString :=
  { NewHTTPServer := fun address => address
    Open := fun _ => .returns (some e) }

/-! ## The flag parser -/

theorem Parse_seen (f : FlagSet) (h : (parseOne f).2.1 = true) :
    Parse f = Parse (parseOne f).1 := by
  rw [Parse, dif_pos h]

theorem Parse_unseen (f : FlagSet) (h : (parseOne f).2.1 = false) :
    Parse f = parseEnd (parseOne f) := by
  rw [Parse, dif_neg (by simp [h])]

/-- What `scanEquals` finds splits `name` at an `'='`. -/
theorem scanEquals_some (name : GoString) (i : Nat) (rest n v : GoString)
    (hrest : name.drop i = rest) (h : scanEquals name i rest = some (n, v)) :
    name = n ++ equals :: v := by
  induction rest generalizing i with
  | nil => simp [scanEquals] at h
  | cons c rest ih =>
    unfold scanEquals at h
    split_ifs at h with hc
    · simp only [Option.some.injEq, Prod.mk.injEq] at h
      obtain ⟨rfl, rfl⟩ := h
      have := List.take_append_drop i name
      rw [hrest, hc] at this
      exact this.symm
    · apply ih (i + 1) _ h
      have : List.drop (i + 1) name = List.drop 1 (List.drop i name) := by
        rw [List.drop_drop]
      rw [this, hrest]
      rfl

/-- The case analysis of `parseOne`, one case for each of its return paths. -/
theorem parseOne_cases (f : FlagSet) (P : FlagSet × Bool × Option FlagError → Prop)
    (hstop : P (f, false, none))
    (hterm : ∀ s tail, f.args = s :: tail → s = [minus, minus] →
      P ({ f with args := tail }, false, none))
    (hbad : ∀ s tail, f.args = s :: tail →
      P ((f.failf (bytes "bad flag syntax: " ++ s)).1, false,
        some (f.failf (bytes "bad flag syntax: " ++ s)).2))
    (hflag : ∀ s tail name hasValue value, f.args = s :: tail →
      s.head? = some minus →
      (hasValue = true ∧ s.drop (numMinuses s) = name ++ equals :: value ∨
        hasValue = false ∧ s.drop (numMinuses s) = name) →
      P (parseOneLookup { f with args := tail } name hasValue value)) :
    P (parseOne f) := by
  unfold parseOne
  split
  · exact hstop
  · rename_i s tail hargs
    dsimp only
    split_ifs with h1 h2 h3
    · exact hstop
    · apply hterm s tail hargs
      simp only [Bool.or_eq_true, decide_eq_true_eq, bne_iff_ne, ne_eq, not_or, not_lt,
        Decidable.not_not, Bool.and_eq_true] at h1 h2
      match s, h1, h2 with
      | [a, b], h1, h2 =>
        simp only [List.head?_cons, Option.some.injEq] at h1
        have hb : b = minus := by
          by_contra hb
          simp [numMinuses, hb] at h2
        rw [h1.2, hb]
    · exact hbad s tail hargs
    · have hhead : s.head? = some minus := by
        simp only [Bool.or_eq_true, decide_eq_true_eq, bne_iff_ne, ne_eq, not_or, not_lt,
          Decidable.not_not] at h1
        exact h1.2
      split
      · rename_i n v hscan
        exact hflag s tail n true v hargs hhead
          (Or.inl ⟨rfl, scanEquals_some _ 1 _ n v rfl hscan⟩)
      · exact hflag s tail _ false [] hargs hhead (Or.inr ⟨rfl, rfl⟩)

/-- The lookup sees a flag only under the name `port`; otherwise it leaves
`*port` alone, and it writes only when it returns an error. -/
theorem parseOneLookup_spec (f : FlagSet) (name : GoString) (hasValue : Bool) (value : GoString) :
    ((parseOneLookup f name hasValue value).2.1 = true → name = bytes "port") ∧
    ((parseOneLookup f name hasValue value).2.1 = false →
      (parseOneLookup f name hasValue value).1.port = f.port ∧
      (parseOneLookup f name hasValue value).1.actual = f.actual) ∧
    ((parseOneLookup f name hasValue value).2.1 = true ∨
      (parseOneLookup f name hasValue value).2.2 = none →
      (parseOneLookup f name hasValue value).1.output = f.output) := by
  unfold parseOneLookup
  split_ifs with h1 h2
  · refine ⟨fun _ => h1, ?_, ?_⟩
    · unfold parseOneValue
      split <;> simp [FlagSet.failf]
    · unfold parseOneValue
      split <;> simp [FlagSet.failf]
  · simp
  · simp [FlagSet.failf]

/-- An argument that `parseOne` sees as a flag supplies the flag `port`. -/
theorem parseOne_seen_isPortFlag (f : FlagSet) (h : (parseOne f).2.1 = true) :
    ∃ s tail, f.args = s :: tail ∧ isPortFlag s = true := by
  revert h
  apply parseOne_cases f (fun r => r.2.1 = true → ∃ s tail, f.args = s :: tail ∧ isPortFlag s = true)
  · simp
  · simp
  · simp
  · intro s tail name hasValue value hargs hhead hname hseen
    have hport := (parseOneLookup_spec _ _ _ _).1 hseen
    subst hport
    refine ⟨s, tail, hargs, ?_⟩
    match s, hhead with
    | [a], hhead =>
      rcases hname with ⟨_, hn⟩ | ⟨_, hn⟩ <;> simp [numMinuses, bytes] at hn
    | a :: b :: rest, hhead =>
      simp only [List.head?_cons, Option.some.injEq] at hhead
      subst hhead
      by_cases hb : b = minus
      · subst hb
        have h2 : numMinuses (minus :: minus :: rest) = 2 := by simp [numMinuses]
        rw [h2] at hname
        simp only [List.drop_succ_cons, List.drop_zero] at hname
        rcases hname with ⟨_, hn⟩ | ⟨_, hn⟩ <;> subst hn <;>
          simp [isPortFlag, bytes, minus, equals, List.isPrefixOf]
      · have h1 : numMinuses (minus :: b :: rest) = 1 := by simp [numMinuses, hb]
        rw [h1] at hname
        simp only [List.drop_succ_cons, List.drop_zero] at hname
        rcases hname with ⟨_, hn⟩ | ⟨_, hn⟩ <;> rw [hn] <;>
          simp [isPortFlag, bytes, minus, equals, List.isPrefixOf]

/-- A call of `parseOne` that does not see a flag leaves `*port` alone. -/
theorem parseOne_unseen_port (f : FlagSet) (h : (parseOne f).2.1 = false) :
    (parseOne f).1.port = f.port ∧ (parseOne f).1.actual = f.actual := by
  revert h
  apply parseOne_cases f (fun r => r.2.1 = false → r.1.port = f.port ∧ r.1.actual = f.actual)
  · simp
  · simp
  · simp [FlagSet.failf]
  · intro s tail name hasValue value _ _ _ hseen
    exact (parseOneLookup_spec _ _ _ _).2.1 hseen

/-- A call of `parseOne` that returns no error writes nothing. -/
theorem parseOne_output (f : FlagSet) (h : (parseOne f).2.1 = true ∨ (parseOne f).2.2 = none) :
    (parseOne f).1.output = f.output := by
  revert h
  apply parseOne_cases f (fun r => r.2.1 = true ∨ r.2.2 = none → r.1.output = f.output)
  · simp
  · simp
  · simp
  · intro s tail name hasValue value _ _ _ hseen
    exact (parseOneLookup_spec _ _ _ _).2.2 hseen

/-- When `Parse` returns, the flag package has written nothing. -/
theorem Parse_ok_output (f g : FlagSet) (h : Parse f = .ok g) : g.output = f.output := by
  induction f using Parse.induct with
  | case1 f hseen ih =>
    rw [Parse_seen f hseen] at h
    rw [ih h, parseOne_output f (Or.inl hseen)]
  | case2 f hseen =>
    have hseen : (parseOne f).2.1 = false := by simpa using hseen
    rw [Parse_unseen f hseen] at h
    unfold parseEnd at h
    split at h
    · rename_i herr
      simp only [ParseResult.ok.injEq] at h
      rw [← h, parseOne_output f (Or.inr herr)]
    · simp at h
    · simp at h

/-- The arguments `-port p` set the port to `p`, whatever `p` is. -/
theorem Parse_port (p : GoString) :
    Parse (FlagSet.String [bytes "-port", p]) =
      .ok { port := p, actual := true, args := [], output := [] } := by
  have h1 : (parseOne (FlagSet.String [bytes "-port", p])).1 =
      { port := p, actual := true, args := [], output := [] } := rfl
  rw [Parse_seen (FlagSet.String [bytes "-port", p]) rfl, h1,
    Parse_unseen { port := p, actual := true, args := [], output := [] } rfl]
  rfl

/-- Without arguments the flag set stays as it was defined. -/
theorem Parse_nil : Parse (FlagSet.String []) = .ok (FlagSet.String []) := by
  rw [Parse_unseen (FlagSet.String []) rfl]
  rfl

/-- The process is ended by `flag.Parse` only with status 0 or 2. -/
theorem Parse_exit_code (f g : FlagSet) (code : Nat) (h : Parse f = .exit g code) :
    code = 0 ∨ code = 2 := by
  induction f using Parse.induct with
  | case1 f hseen ih =>
    rw [Parse_seen f hseen] at h
    exact ih h
  | case2 f hseen =>
    have hseen : (parseOne f).2.1 = false := by simpa using hseen
    rw [Parse_unseen f hseen] at h
    unfold parseEnd at h
    split at h
    · simp at h
    · simp only [ParseResult.exit.injEq] at h
      exact Or.inl h.2.symm
    · simp only [ParseResult.exit.injEq] at h
      exact Or.inr h.2.symm

/-! ## The run of `main` -/

theorem Println_str {H : Type} (a : GoString) :
    (Println [.str a] : List (Effect H) × Bool) = ([.logOutput (a ++ [newline])], true) := by
  simp [Println, Sprintln, doPrintln, printArg]

theorem Sprint_fatal (e : GoError) :
    Sprint [.str couldNotOpen, .err e] = (handleMethods e).map (couldNotOpen ++ ·) := by
  cases h : handleMethods e <;> simp [Sprint, doPrint, printArg, Operand.isString, h]

/-- An error that is no `fmt.Formatter` and whose `Error` returns is printed as
the text that `Error` returns. -/
theorem handleMethods_plain (e : GoError) (text : GoString) (hF : e.Format = none)
    (hE : e.Error = .returns text) : handleMethods e = some text := by
  simp [handleMethods, hF, hE]

/-- When `flag.Parse` returns, the run of `main` is the run of lines 15 to 24. -/
theorem main_ok {H : Type} (srv : Server H) (args : List GoString) (f : FlagSet)
    (hp : Parse (FlagSet.String args) = .ok f) : main srv args = bootstrap srv f.port := by
  have hout : f.output = [] := Parse_ok_output _ _ hp
  unfold main
  rw [hp]
  simp [hout]

/-- When `flag.Parse` exits, the run of `main` ends there. -/
theorem main_exit {H : Type} (srv : Server H) (args : List GoString) (f : FlagSet) (code : Nat)
    (hp : Parse (FlagSet.String args) = .exit f code) :
    main srv args = ⟨f.output.map .flagWrite, .exited code⟩ := by
  unfold main
  rw [hp]

theorem bootstrap_blocks {H : Type} (srv : Server H) (p : GoString)
    (h : srv.Open (srv.NewHTTPServer (listeningPort p)) = .blocks) :
    bootstrap srv p =
      ⟨[.logOutput (listeningPort p ++ [newline]), .NewHTTPServer (listeningPort p),
        .OpenCall (srv.NewHTTPServer (listeningPort p))], .blocked⟩ := by
  simp [bootstrap, h, Println_str]

theorem bootstrap_nil {H : Type} (srv : Server H) (p : GoString)
    (h : srv.Open (srv.NewHTTPServer (listeningPort p)) = .returns none) :
    bootstrap srv p =
      ⟨[.logOutput (listeningPort p ++ [newline]), .NewHTTPServer (listeningPort p),
        .OpenCall (srv.NewHTTPServer (listeningPort p)), .OpenReturn none], .returned⟩ := by
  simp [bootstrap, h, Println_str]

theorem bootstrap_err {H : Type} (srv : Server H) (p : GoString) (e : GoError) (s : GoString)
    (h : srv.Open (srv.NewHTTPServer (listeningPort p)) = .returns (some e))
    (hs : handleMethods e = some s) :
    bootstrap srv p =
      ⟨[.logOutput (listeningPort p ++ [newline]), .NewHTTPServer (listeningPort p),
        .OpenCall (srv.NewHTTPServer (listeningPort p)), .OpenReturn (some e),
        .logOutput (couldNotOpen ++ s)], .exited 1⟩ := by
  simp [bootstrap, h, Println_str, Fatal, Sprint_fatal, hs]

theorem bootstrap_panic {H : Type} (srv : Server H) (p : GoString) (e : GoError)
    (h : srv.Open (srv.NewHTTPServer (listeningPort p)) = .returns (some e))
    (hs : handleMethods e = none) :
    bootstrap srv p =
      ⟨[.logOutput (listeningPort p ++ [newline]), .NewHTTPServer (listeningPort p),
        .OpenCall (srv.NewHTTPServer (listeningPort p)), .OpenReturn (some e),
        .panicReport], .panicked⟩ := by
  simp [bootstrap, h, Println_str, Fatal, Sprint_fatal, hs]

/-- The four ways lines 15 to 24 can go, by what `Open` does. -/
theorem bootstrap_cases {H : Type} (srv : Server H) (p : GoString) :
    (srv.Open (srv.NewHTTPServer (listeningPort p)) = .blocks ∧
      bootstrap srv p =
        ⟨[.logOutput (listeningPort p ++ [newline]), .NewHTTPServer (listeningPort p),
          .OpenCall (srv.NewHTTPServer (listeningPort p))], .blocked⟩) ∨
    (srv.Open (srv.NewHTTPServer (listeningPort p)) = .returns none ∧
      bootstrap srv p =
        ⟨[.logOutput (listeningPort p ++ [newline]), .NewHTTPServer (listeningPort p),
          .OpenCall (srv.NewHTTPServer (listeningPort p)), .OpenReturn none], .returned⟩) ∨
    (∃ e s, srv.Open (srv.NewHTTPServer (listeningPort p)) = .returns (some e) ∧
      handleMethods e = some s ∧
      bootstrap srv p =
        ⟨[.logOutput (listeningPort p ++ [newline]), .NewHTTPServer (listeningPort p),
          .OpenCall (srv.NewHTTPServer (listeningPort p)), .OpenReturn (some e),
          .logOutput (couldNotOpen ++ s)], .exited 1⟩) ∨
    (∃ e, srv.Open (srv.NewHTTPServer (listeningPort p)) = .returns (some e) ∧
      handleMethods e = none ∧
      bootstrap srv p =
        ⟨[.logOutput (listeningPort p ++ [newline]), .NewHTTPServer (listeningPort p),
          .OpenCall (srv.NewHTTPServer (listeningPort p)), .OpenReturn (some e),
          .panicReport], .panicked⟩) := by
  cases hopen : srv.Open (srv.NewHTTPServer (listeningPort p)) with
  | blocks => exact Or.inl ⟨rfl, bootstrap_blocks srv p hopen⟩
  | returns err =>
    cases err with
    | none => exact Or.inr (Or.inl ⟨rfl, bootstrap_nil srv p hopen⟩)
    | some e =>
      cases hs : handleMethods e with
      | some s => exact Or.inr (Or.inr (Or.inl ⟨e, s, rfl, hs, bootstrap_err srv p e s hopen hs⟩))
      | none => exact Or.inr (Or.inr (Or.inr ⟨e, rfl, hs, bootstrap_panic srv p e hopen hs⟩))

/-- Lines 15 to 24 begin with the log of the address and the two calls. -/
theorem bootstrap_start {H : Type} (srv : Server H) (p : GoString) :
    ∃ rest, (bootstrap srv p).trace =
      .logOutput (listeningPort p ++ [newline]) :: .NewHTTPServer (listeningPort p) ::
        .OpenCall (srv.NewHTTPServer (listeningPort p)) :: rest := by
  rcases bootstrap_cases srv p with ⟨_, h⟩ | ⟨_, h⟩ | ⟨e, s, _, _, h⟩ | ⟨e, _, _, h⟩ <;>
    rw [h] <;> exact ⟨_, rfl⟩

/-- An undefined flag: `flag.Parse` writes the error and the usage and exits
with status 2. -/
theorem main_undefined_flag {H : Type} (srv : Server H) :
    main srv [bytes "-x"] =
      ⟨[.flagWrite (.errLine (bytes "flag provided but not defined: -x")), .flagWrite .usage],
        .exited 2⟩ := by
  have hp : Parse (FlagSet.String [bytes "-x"]) =
      .exit { port := bytes "8080", actual := false, args := [],
              output := [.errLine (bytes "flag provided but not defined: -x"), .usage] } 2 := by
    rw [Parse_unseen (FlagSet.String [bytes "-x"]) rfl]
    rfl
  rw [main_exit srv _ _ _ hp]
  rfl

/-- The flag `-port` without a value: `flag.Parse` exits with status 2. -/
theorem main_missing_value {H : Type} (srv : Server H) :
    main srv [bytes "-port"] =
      ⟨[.flagWrite (.errLine (bytes "flag needs an argument: -port")), .flagWrite .usage],
        .exited 2⟩ := by
  have hp : Parse (FlagSet.String [bytes "-port"]) =
      .exit { port := bytes "8080", actual := false, args := [],
              output := [.errLine (bytes "flag needs an argument: -port"), .usage] } 2 := by
    rw [Parse_unseen (FlagSet.String [bytes "-port"]) rfl]
    rfl
  rw [main_exit srv _ _ _ hp]
  rfl

/-- A second undefined flag after a port: `flag.Parse` exits with status 2. -/
theorem main_port_then_undefined {H : Type} (srv : Server H) :
    main srv [bytes "--port=9090", bytes "-v"] =
      ⟨[.flagWrite (.errLine (bytes "flag provided but not defined: -v")), .flagWrite .usage],
        .exited 2⟩ := by
  have h1 : (parseOne (FlagSet.String [bytes "--port=9090", bytes "-v"])).1 =
      { port := bytes "9090", actual := true, args := [bytes "-v"], output := [] } := by decide
  have hp : Parse (FlagSet.String [bytes "--port=9090", bytes "-v"]) =
      .exit { port := bytes "9090", actual := true, args := [],
              output := [.errLine (bytes "flag provided but not defined: -v"), .usage] } 2 := by
    rw [Parse_seen (FlagSet.String [bytes "--port=9090", bytes "-v"]) (by decide), h1,
      Parse_unseen _ (by decide)]
    rfl
  rw [main_exit srv _ _ _ hp]
  rfl

/-- The run without arguments against a server that fails with `e`, when `fmt`
prints `e` as `s`. -/
theorem main_failing_with (e : GoError) (s : GoString) (hs : handleMethods e = some s) :
    main (serverFailingWith e) [] =
      ⟨[.logOutput (bytes ":8080\n"), .NewHTTPServer (bytes ":8080"), .OpenCall (bytes ":8080"),
        .OpenReturn (some e), .logOutput (couldNotOpen ++ s)], .exited 1⟩ := by
  rw [main_ok _ _ _ Parse_nil, bootstrap_err _ _ e s rfl hs]
  rfl

/-- The run without arguments against a server that fails with an error whose
printing panics. -/
theorem main_failing_panic (e : GoError) (hs : handleMethods e = none) :
    main (serverFailingWith e) [] =
      ⟨[.logOutput (bytes ":8080\n"), .NewHTTPServer (bytes ":8080"), .OpenCall (bytes ":8080"),
        .OpenReturn (some e), .panicReport], .panicked⟩ := by
  rw [main_ok _ _ _ Parse_nil, bootstrap_panic _ _ e rfl hs]
  rfl

/-! ## The listen address -/

/-- C1: for every port string `p`, also the empty one, the listen address that
`main` computes from `p` is the byte `':'` followed by `p`; `"9090"` gives
`":9090"`, `""` gives `":"`, and run with the arguments `-port p` it is this
address that `main` hands to `server.NewHTTPServer`. -/
theorem listeningPort_eq (p : GoString) :
    listeningPort p = bytes ":" ++ p ∧ listeningPort p = colon :: p ∧
    listeningPort (bytes "9090") = bytes ":9090" ∧ listeningPort [] = bytes ":" ∧
    ∀ {H : Type} (srv : Server H),
      Effect.NewHTTPServer (colon :: p) ∈ (main srv [bytes "-port", p]).trace := by
  refine ⟨rfl, rfl, by decide, by decide, ?_⟩
  intro H srv
  rw [main_ok srv _ _ (Parse_port p)]
  have hl : listeningPort p = colon :: p := rfl
  obtain ⟨rest, h⟩ := bootstrap_start srv p
  rw [h, hl]
  simp

/-- C2: when no argument of the command line supplies the flag `port` (as for
the empty argument list), the port value that `flag.Parse` leaves is the default
`"8080"`, the listen address computed from it is `":8080"`, and a run in which
`flag.Parse` returns logs `":8080"` and passes `":8080"` to
`server.NewHTTPServer`; the run without arguments is such a run. -/
theorem default_port (args : List GoString) (hno : ∀ a ∈ args, isPortFlag a = false) :
    (Parse (FlagSet.String args)).flagSet.port = bytes "8080" ∧
    listeningPort (Parse (FlagSet.String args)).flagSet.port = bytes ":8080" ∧
    (∀ {H : Type} (srv : Server H) (f : FlagSet), Parse (FlagSet.String args) = .ok f →
      ∃ rest, (main srv args).trace =
        .logOutput (bytes ":8080\n") :: .NewHTTPServer (bytes ":8080") :: rest) ∧
    (∀ {H : Type} (srv : Server H), ∃ rest, (main srv []).trace =
        .logOutput (bytes ":8080\n") :: .NewHTTPServer (bytes ":8080") :: rest) := by
  have hunseen : (parseOne (FlagSet.String args)).2.1 = false := by
    by_contra hseen
    have hseen : (parseOne (FlagSet.String args)).2.1 = true := by simpa using hseen
    obtain ⟨s, tail, hargs, hs⟩ := parseOne_seen_isPortFlag _ hseen
    have hmem : s ∈ args := by
      have : args = s :: tail := hargs
      rw [this]; simp
    rw [hno s hmem] at hs
    exact Bool.false_ne_true hs
  have hport : (Parse (FlagSet.String args)).flagSet.port = bytes "8080" := by
    rw [Parse_unseen _ hunseen]
    have := (parseOne_unseen_port _ hunseen).1
    unfold parseEnd
    split <;> exact this
  have hrun : ∀ {H : Type} (srv : Server H) (args : List GoString) (f : FlagSet),
      Parse (FlagSet.String args) = .ok f → f.port = bytes "8080" →
      ∃ rest, (main srv args).trace =
        .logOutput (bytes ":8080\n") :: .NewHTTPServer (bytes ":8080") :: rest := by
    intro H srv args f hp hf
    rw [main_ok srv args f hp, hf]
    have hl : listeningPort (bytes "8080") = bytes ":8080" := by decide
    have hn : bytes ":8080" ++ [newline] = bytes ":8080\n" := by decide
    obtain ⟨rest, h⟩ := bootstrap_start srv (bytes "8080")
    rw [h, hl, hn]
    exact ⟨_, rfl⟩
  refine ⟨hport, ?_, ?_, ?_⟩
  · rw [hport]; decide
  · intro H srv f hp
    apply hrun srv args f hp
    rw [hp] at hport
    exact hport
  · intro H srv
    exact hrun srv [] _ Parse_nil rfl

theorem default_port_witness :
    (∀ a ∈ [bytes "serve", bytes "now"], isPortFlag a = false) ∧
    (Parse (FlagSet.String [bytes "serve", bytes "now"])).flagSet.port = bytes "8080" ∧
    listeningPort (Parse (FlagSet.String [bytes "serve", bytes "now"])).flagSet.port =
      bytes ":8080" :=
  have h := default_port [bytes "serve", bytes "now"] (by decide)
  ⟨by decide, h.1, h.2.1⟩

/-- C9: the map from the port string to the listen address is injective and
can be inverted: the address has length `len(p) + 1`, begins with `':'`,
dropping its first byte gives `p` again, two different ports never give the
same address, and the address is `':'` followed only by decimal digits exactly
when `p` consists only of decimal digits. -/
theorem listeningPort_injective :
    (∀ p : GoString, (listeningPort p).length = p.length + 1 ∧
      (listeningPort p).head? = some colon ∧ (listeningPort p).drop 1 = p ∧
      (colonDigits (listeningPort p) = true ↔ p.all isDigit = true)) ∧
    Function.Injective listeningPort ∧
    (∀ p q : GoString, p ≠ q → listeningPort p ≠ listeningPort q) := by
  have hl : ∀ p : GoString, listeningPort p = colon :: p := fun _ => rfl
  have hinj : Function.Injective listeningPort := by
    intro p q h
    rw [hl, hl] at h
    exact List.tail_eq_of_cons_eq h
  refine ⟨?_, hinj, fun p q hpq h => hpq (hinj h)⟩
  intro p
  rw [hl]
  refine ⟨by simp, rfl, rfl, ?_⟩
  simp [colonDigits]

/-! ## Pass-through of the port -/

/-- C4: `main` checks nothing about the port: in a run in which `flag.Parse`
returns with the port value `p`, the first three effects are the log message
`":" + p` (with the newline of `Println`), the call of `server.NewHTTPServer`
with `":" + p` and the call of `Open` on the handle obtained; the logger
writes the header, `":" + p` and a newline; and every `p`, empty or malformed,
is the port value of such a run, the one with the arguments `-port p`. -/
theorem port_passed_unchecked {H : Type} (srv : Server H) (args : List GoString) (f : FlagSet)
    (hp : Parse (FlagSet.String args) = .ok f) :
    (∃ rest, (main srv args).trace =
      .logOutput (bytes ":" ++ f.port ++ [newline]) :: .NewHTTPServer (bytes ":" ++ f.port) ::
        .OpenCall (srv.NewHTTPServer (bytes ":" ++ f.port)) :: rest) ∧
    (∀ header : GoString, formatLine header (bytes ":" ++ f.port ++ [newline]) =
      header ++ (bytes ":" ++ f.port) ++ [newline]) ∧
    (∀ p : GoString, ∃ g, Parse (FlagSet.String [bytes "-port", p]) = .ok g ∧ g.port = p) := by
  refine ⟨?_, ?_, fun p => ⟨_, Parse_port p, rfl⟩⟩
  · rw [main_ok srv args f hp]
    exact bootstrap_start srv f.port
  · intro header
    unfold formatLine
    rw [List.getLast?_append]
    simp

theorem port_passed_unchecked_witness :
    Parse (FlagSet.String [bytes "-port", bytes "eighty;"]) =
      .ok { port := bytes "eighty;", actual := true, args := [], output := [] } ∧
    ∃ rest, (main runningServer [bytes "-port", bytes "eighty;"]).trace =
      .logOutput (bytes ":" ++ bytes "eighty;" ++ [newline]) ::
        .NewHTTPServer (bytes ":" ++ bytes "eighty;") ::
        .OpenCall (runningServer.NewHTTPServer (bytes ":" ++ bytes "eighty;")) :: rest :=
  ⟨Parse_port (bytes "eighty;"),
    (port_passed_unchecked runningServer [bytes "-port", bytes "eighty;"] _
      (Parse_port (bytes "eighty;"))).1⟩

/-! ## No retry -/

/-- C6, as stated, fails: with the flag `-port` given without a value the run
ends in `flag.Parse` and `server.NewHTTPServer` is not called once, but not at
all. -/
theorem called_once_counterexample :
    ¬ ((main failingServer [bytes "-port"]).trace.countP Effect.isNewHTTPServer = 1 ∧
        (main failingServer [bytes "-port"]).trace.countP Effect.isOpenCall = 1) := by
  rw [main_missing_value failingServer]
  decide

/-- C6, amended: in a run in which `flag.Parse` returns, whatever `Open` does,
`server.NewHTTPServer` is called exactly once, with the listen address, and
`Open` is called exactly once, on the handle that call returned. -/
theorem called_once {H : Type} (srv : Server H) (args : List GoString) (f : FlagSet)
    (hp : Parse (FlagSet.String args) = .ok f) :
    (main srv args).trace.countP Effect.isNewHTTPServer = 1 ∧
    (main srv args).trace.countP Effect.isOpenCall = 1 ∧
    (main srv args).trace.filter Effect.isNewHTTPServer =
      [.NewHTTPServer (listeningPort f.port)] ∧
    (main srv args).trace.filter Effect.isOpenCall =
      [.OpenCall (srv.NewHTTPServer (listeningPort f.port))] := by
  rw [main_ok srv args f hp]
  rcases bootstrap_cases srv f.port with ⟨_, h⟩ | ⟨_, h⟩ | ⟨e, s, _, _, h⟩ | ⟨e, _, _, h⟩ <;>
    rw [h] <;>
    simp [List.countP_cons, List.filter_cons, Effect.isNewHTTPServer, Effect.isOpenCall]

theorem called_once_witness :
    (main failingServer [bytes "-port", bytes "9090"]).trace.countP Effect.isNewHTTPServer = 1 ∧
    (main failingServer [bytes "-port", bytes "9090"]).trace.countP Effect.isOpenCall = 1 :=
  have h := called_once failingServer [bytes "-port", bytes "9090"] _ (Parse_port (bytes "9090"))
  ⟨h.1, h.2.1⟩

/-! ## A failing start -/

/-- C3, as stated, fails: for an error that implements `fmt.Formatter` the
fatal message is what `Format` writes, here `FORMATTED`, and does not contain
the text `boom` of its `Error` method; and for an error whose printing panics
no log message is written at all. -/
theorem open_error_is_fatal_counterexample :
    (¬ ∃ s, (main (serverFailingWith formatterError) []).trace.getLast? = some (.logOutput s) ∧
        bytes "could not open httpServer" <:+: s ∧ bytes "boom" <:+: s) ∧
    (¬ ∃ s, (main (serverFailingWith panickingError) []).trace.getLast? = some (.logOutput s)) := by
  rw [main_failing_with formatterError (bytes "FORMATTED") rfl,
    main_failing_panic panickingError rfl]
  constructor
  · rintro ⟨s, hs, _, hboom⟩
    simp only [List.getLast?_cons_cons, List.getLast?_singleton, Option.some.injEq,
      Effect.logOutput.injEq] at hs
    subst hs
    revert hboom
    decide
  · rintro ⟨s, hs⟩
    simp at hs

/-- C3, amended: in a run in which `flag.Parse` returns, whatever the port, and
`Open` returns an error `e`, the process ends with a non-zero exit status; when
`fmt` prints `e` (under the verb `v`) as `s`, the last effect before that is the
log message `could not open httpServer` followed by `s`, which contains the
fixed text, and contains the text that the method `Error` of `e` returns
whenever `s` contains it; so does the line the logger writes, whatever its
header.  For an `e` that does not implement `fmt.Formatter` and whose `Error`
returns, `s` is that text. -/
theorem open_error_is_fatal {H : Type} (srv : Server H) (args : List GoString) (f : FlagSet)
    (e : GoError) (hp : Parse (FlagSet.String args) = .ok f)
    (hopen : srv.Open (srv.NewHTTPServer (listeningPort f.port)) = .returns (some e)) :
    (main srv args).exitsNonZero ∧
    (∀ s, handleMethods e = some s →
      (main srv args).trace.getLast? =
        some (.logOutput (bytes "could not open httpServer" ++ s)) ∧
      bytes "could not open httpServer" <:+: bytes "could not open httpServer" ++ s ∧
      (∀ header : GoString, bytes "could not open httpServer" <:+:
        formatLine header (bytes "could not open httpServer" ++ s)) ∧
      ∀ text, e.Error = .returns text → text <:+: s →
        text <:+: bytes "could not open httpServer" ++ s ∧
        ∀ header : GoString, text <:+:
          formatLine header (bytes "could not open httpServer" ++ s)) ∧
    (∀ text, e.Format = none → e.Error = .returns text → handleMethods e = some text) := by
  rw [main_ok srv args f hp]
  refine ⟨?_, ?_, fun text hF hE => handleMethods_plain e text hF hE⟩
  · cases hs : handleMethods e with
    | some s => rw [bootstrap_err srv _ e s hopen hs]; exact ⟨1, rfl, by decide⟩
    | none => rw [bootstrap_panic srv _ e hopen hs]; exact ⟨2, rfl, by decide⟩
  · intro s hs
    rw [bootstrap_err srv _ e s hopen hs]
    have h1 : bytes "could not open httpServer" <:+: bytes "could not open httpServer" ++ s :=
      ⟨[], s, by simp⟩
    have h3 : ∀ header : GoString, bytes "could not open httpServer" ++ s <:+:
        formatLine header (bytes "could not open httpServer" ++ s) :=
      fun header => ⟨header, _, rfl⟩
    refine ⟨rfl, h1, fun header => h1.trans (h3 header), ?_⟩
    intro text _ htext
    have h2 : text <:+: bytes "could not open httpServer" ++ s :=
      htext.trans ⟨bytes "could not open httpServer", [], by simp⟩
    exact ⟨h2, fun header => h2.trans (h3 header)⟩

theorem open_error_is_fatal_witness :
    (main failingServer [bytes "-port", bytes "9090"]).exitsNonZero ∧
    (main failingServer [bytes "-port", bytes "9090"]).trace.getLast? =
      some (.logOutput (bytes "could not open httpServer" ++
        bytes "listen tcp :9090: bind: address already in use")) ∧
    bytes "listen tcp :9090: bind: address already in use" <:+:
      bytes "could not open httpServer" ++
        bytes "listen tcp :9090: bind: address already in use" :=
  have h := open_error_is_fatal failingServer [bytes "-port", bytes "9090"] _ bindError
    (Parse_port (bytes "9090")) rfl
  have h2 := h.2.1 (bytes "listen tcp :9090: bind: address already in use") rfl
  ⟨h.1, h2.1, (h2.2.2.2 _ rfl (List.infix_refl _)).1⟩

/-- C8, as stated, fails: for an error that implements `fmt.Formatter` the
fatal message is `could not open httpServerFORMATTED`, not the fixed text
followed by the text `boom` of its `Error` method; and for an error whose
printing panics the process ends with status 2, not 1. -/
theorem fatal_message_exact_counterexample :
    (main (serverFailingWith formatterError) []).trace.getLast? =
      some (.logOutput (bytes "could not open httpServerFORMATTED")) ∧
    (main (serverFailingWith formatterError) []).trace.getLast? ≠
      some (.logOutput (bytes "could not open httpServer" ++ bytes "boom")) ∧
    (main (serverFailingWith panickingError) []).outcome.exitStatus = some 2 := by
  rw [main_failing_with formatterError (bytes "FORMATTED") rfl,
    main_failing_panic panickingError rfl]
  decide

/-- C8, amended: in a run in which `flag.Parse` returns and `Open` returns an
error `e` that `fmt` prints (under the verb `v`) as the text its method `Error`
returns, the message of `log.Fatal("could not open httpServer", err)` is
exactly the text `could not open httpServer` followed at once by that text,
nothing in between: `Sprint` puts a space between two operands only when
neither is a string; and the process then exits with status exactly 1.  Every
`e` that does not implement `fmt.Formatter` and whose `Error` returns is
printed so. -/
theorem fatal_message_exact {H : Type} (srv : Server H) (args : List GoString) (f : FlagSet)
    (e : GoError) (text : GoString) (hp : Parse (FlagSet.String args) = .ok f)
    (hopen : srv.Open (srv.NewHTTPServer (listeningPort f.port)) = .returns (some e))
    (hE : e.Error = .returns text) (hs : handleMethods e = some text) :
    (main srv args).trace.getLast? =
      some (.logOutput (bytes "could not open httpServer" ++ text)) ∧
    Sprint [.str (bytes "could not open httpServer"), .err e] =
      some (bytes "could not open httpServer" ++ text) ∧
    (∀ (a b : Operand) (ta tb : GoString), printArg a = some ta → printArg b = some tb →
      Sprint [a, b] =
        some (ta ++ (if !a.isString && !b.isString then [space] else []) ++ tb)) ∧
    (main srv args).outcome = .exited 1 ∧
    (main srv args).outcome.exitStatus = some 1 ∧
    (∀ (e' : GoError) (text' : GoString), e'.Format = none → e'.Error = .returns text' →
      handleMethods e' = some text') := by
  rw [main_ok srv args f hp, bootstrap_err srv _ e text hopen hs]
  refine ⟨rfl, ?_, ?_, rfl, rfl, handleMethods_plain⟩
  · have := Sprint_fatal e
    rw [hs] at this
    exact this
  · intro a b ta tb ha hb
    simp [Sprint, doPrint, ha, hb, Bool.and_comm]

theorem fatal_message_exact_witness :
    (main failingServer []).trace.getLast? =
      some (.logOutput (bytes "could not open httpServer" ++
        bytes "listen tcp :9090: bind: address already in use")) ∧
    (main failingServer []).outcome = .exited 1 :=
  have h := fatal_message_exact failingServer [] _ bindError
    (bytes "listen tcp :9090: bind: address already in use") Parse_nil rfl rfl rfl
  ⟨h.1, h.2.2.2.1⟩

/-! ## The exit status -/

/-- C5, as stated, fails: with the undefined flag `-x` the process ends with
status 2 although `Open` has returned no error; it was never called. -/
theorem exit_iff_open_error_counterexample :
    ¬ ((main stoppedServer [bytes "-x"]).exitsNonZero ↔
        (main stoppedServer [bytes "-x"]).openFailed) := by
  rw [main_undefined_flag stoppedServer]
  intro h
  obtain ⟨e, he⟩ := h.1 ⟨2, rfl, by decide⟩
  simp at he

/-- C5, amended: if `flag.Parse` returns and `Open` returns `nil`, the effects
are the log of the address, the two calls and the return of `Open`, no fatal
message, `main` returns and the exit status is 0; and in every run the process
ends with a non-zero status if and only if `Open` returned an error or
`flag.Parse` ended the process with status 2. -/
theorem exit_iff_open_error {H : Type} (srv : Server H) (args : List GoString) :
    (∀ f, Parse (FlagSet.String args) = .ok f →
      srv.Open (srv.NewHTTPServer (listeningPort f.port)) = .returns none →
      (main srv args).trace =
        [.logOutput (listeningPort f.port ++ [newline]), .NewHTTPServer (listeningPort f.port),
          .OpenCall (srv.NewHTTPServer (listeningPort f.port)), .OpenReturn none] ∧
      (main srv args).outcome = .returned ∧ (main srv args).outcome.exitStatus = some 0) ∧
    ((main srv args).exitsNonZero ↔
      (main srv args).openFailed ∨ ∃ f, Parse (FlagSet.String args) = .exit f 2) := by
  constructor
  · intro f hp hopen
    rw [main_ok srv args f hp, bootstrap_nil srv _ hopen]
    exact ⟨rfl, rfl, rfl⟩
  · cases hp : Parse (FlagSet.String args) with
    | ok f =>
      rw [main_ok srv args f hp]
      rcases bootstrap_cases srv f.port with ⟨_, h⟩ | ⟨_, h⟩ | ⟨e, s, _, _, h⟩ | ⟨e, _, _, h⟩ <;>
        rw [h] <;> simp [Run.exitsNonZero, Run.openFailed, Outcome.exitStatus]
    | exit f code =>
      rw [main_exit srv args f code hp]
      rcases Parse_exit_code _ _ _ hp with hc | hc <;> subst hc <;>
        simp [Run.exitsNonZero, Run.openFailed, Outcome.exitStatus]

theorem exit_iff_open_error_witness :
    (main stoppedServer [bytes "-port", bytes "9090"]).outcome.exitStatus = some 0 ∧
    ((main failingServer [bytes "-port", bytes "9090"]).exitsNonZero ↔
      (main failingServer [bytes "-port", bytes "9090"]).openFailed ∨
        ∃ f, Parse (FlagSet.String [bytes "-port", bytes "9090"]) = .exit f 2) ∧
    ((main stoppedServer [bytes "-h"]).exitsNonZero ↔
      (main stoppedServer [bytes "-h"]).openFailed ∨
        ∃ f, Parse (FlagSet.String [bytes "-h"]) = .exit f 2) :=
  ⟨((exit_iff_open_error stoppedServer [bytes "-port", bytes "9090"]).1 _
      (Parse_port (bytes "9090")) rfl).2.2,
    (exit_iff_open_error failingServer [bytes "-port", bytes "9090"]).2,
    (exit_iff_open_error stoppedServer [bytes "-h"]).2⟩

/-! ## The order of the effects -/

/-- C7, as stated, fails: with an undefined flag after the port the run has
finished, in the exit of `flag.Parse`, and `Open` has not returned; none of
the effects of the bootstrap has occurred.  And after `Open` has returned an
error whose printing panics, the run ends neither in a return nor in a log
message and an exit, but in the panic. -/
theorem finishes_after_open_counterexample :
    ¬ ((main runningServer [bytes "--port=9090", bytes "-v"]).finished →
        (main runningServer [bytes "--port=9090", bytes "-v"]).openReturned) ∧
    ((main (serverFailingWith panickingError) []).outcome = .panicked ∧
      (main (serverFailingWith panickingError) []).trace.getLast? = some .panicReport) := by
  rw [main_port_then_undefined runningServer, main_failing_panic panickingError rfl]
  refine ⟨?_, rfl, rfl⟩
  intro h
  obtain ⟨err, he⟩ := h (by simp [Run.finished])
  simp at he

/-- C7, amended: in a run in which `flag.Parse` returns, the effects are, in
this order, the log of the listen address, the call of `server.NewHTTPServer`
and the call of `Open`; then, when `Open` blocks, nothing more and the run
stays blocked; when `Open` returns `nil`, its return and the return of `main`;
when `Open` returns an error that `fmt` prints, its return, the fatal log
message and the exit with status 1; when `Open` returns an error whose printing
panics, its return and the panic, without a log message.  So such a run
finishes only when `Open` has returned, and how it ends is given by what `Open`
returned.  In a run in which `flag.Parse` ends the process, the effects are
what the flag package wrote and nothing else. -/
theorem finishes_after_open {H : Type} (srv : Server H) (args : List GoString) :
    (∀ f, Parse (FlagSet.String args) = .ok f →
      (∃ rest, (main srv args).trace =
        [.logOutput (listeningPort f.port ++ [newline]), .NewHTTPServer (listeningPort f.port),
          .OpenCall (srv.NewHTTPServer (listeningPort f.port))] ++ rest ∧
        ((srv.Open (srv.NewHTTPServer (listeningPort f.port)) = .blocks ∧ rest = [] ∧
            (main srv args).outcome = .blocked) ∨
          (srv.Open (srv.NewHTTPServer (listeningPort f.port)) = .returns none ∧
            rest = [.OpenReturn none] ∧ (main srv args).outcome = .returned) ∨
          (∃ e s, srv.Open (srv.NewHTTPServer (listeningPort f.port)) = .returns (some e) ∧
            handleMethods e = some s ∧
            rest = [.OpenReturn (some e), .logOutput (couldNotOpen ++ s)] ∧
            (main srv args).outcome = .exited 1) ∨
          (∃ e, srv.Open (srv.NewHTTPServer (listeningPort f.port)) = .returns (some e) ∧
            handleMethods e = none ∧
            rest = [.OpenReturn (some e), .panicReport] ∧
            (main srv args).outcome = .panicked))) ∧
      ((main srv args).finished → (main srv args).openReturned) ∧
      ((main srv args).finished ↔
        ∃ err, srv.Open (srv.NewHTTPServer (listeningPort f.port)) = .returns err)) ∧
    (∀ f code, Parse (FlagSet.String args) = .exit f code →
      (main srv args).trace = f.output.map .flagWrite ∧
      (main srv args).outcome = .exited code ∧
      ∀ x ∈ (main srv args).trace, ∃ w, x = .flagWrite w) := by
  constructor
  · intro f hp
    rw [main_ok srv args f hp]
    rcases bootstrap_cases srv f.port with ⟨ho, h⟩ | ⟨ho, h⟩ | ⟨e, s, ho, hs, h⟩ | ⟨e, ho, hs, h⟩
    · rw [h]
      exact ⟨⟨[], rfl, Or.inl ⟨ho, rfl, rfl⟩⟩, by simp [Run.finished],
        by simp [Run.finished, ho]⟩
    · rw [h]
      exact ⟨⟨_, rfl, Or.inr (Or.inl ⟨ho, rfl, rfl⟩)⟩, fun _ => ⟨none, by simp⟩,
        by simp [Run.finished, ho]⟩
    · rw [h]
      exact ⟨⟨_, rfl, Or.inr (Or.inr (Or.inl ⟨e, s, ho, hs, rfl, rfl⟩))⟩,
        fun _ => ⟨some e, by simp⟩, by simp [Run.finished, ho]⟩
    · rw [h]
      exact ⟨⟨_, rfl, Or.inr (Or.inr (Or.inr ⟨e, ho, hs, rfl, rfl⟩))⟩,
        fun _ => ⟨some e, by simp⟩, by simp [Run.finished, ho]⟩
  · intro f code hp
    rw [main_exit srv args f code hp]
    refine ⟨rfl, rfl, ?_⟩
    intro x hx
    obtain ⟨w, _, hw⟩ := List.mem_map.mp hx
    exact ⟨w, hw.symm⟩

theorem finishes_after_open_witness :
    ¬ (main runningServer [bytes "-port", bytes "9090"]).finished ∧
    ((main stoppedServer [bytes "-port", bytes "9090"]).finished →
      (main stoppedServer [bytes "-port", bytes "9090"]).openReturned) ∧
    (main stoppedServer [bytes "-h"]).outcome = .exited 0 :=
  ⟨fun h => by
      have h2 := ((finishes_after_open runningServer [bytes "-port", bytes "9090"]).1 _
        (Parse_port (bytes "9090"))).2.2.1 h
      obtain ⟨err, he⟩ := h2
      simp [runningServer] at he,
    ((finishes_after_open stoppedServer [bytes "-port", bytes "9090"]).1 _
      (Parse_port (bytes "9090"))).2.1,
    ((finishes_after_open stoppedServer [bytes "-h"]).2
      { port := bytes "8080", actual := false, args := [], output := [.usage] } 0
      (by rw [Parse_unseen (FlagSet.String [bytes "-h"]) rfl]; rfl)).2.1⟩

end HttpServer
